import Mathlib

/-!
Verification development for a barber-shop appointment-booking backend
(`server.js`).  The relational store is modelled as in-memory lists of rows,
each HTTP handler as a pure function from request parameters and the database
state to the new database state, the list of outbound notification calls
`send(to, body)` requested from the messaging collaborator, and the HTTP
response payload.
-/

set_option autoImplicit false

namespace Barber

/-- A row of the `bookings` table. -/
structure Booking where
  id : Nat
  shop_id : Nat
  customer_name : String
  customer_phone : String
  service_name : String
  date_time : String
  status : String
  type : String
  deriving Repr, DecidableEq

/-- A row of the `holidays` table. -/
structure Holiday where
  id : Nat
  date : String
  status : String
  note : String
  deriving Repr, DecidableEq

/-- A row of the `services` table. -/
structure Service where
  id : Nat
  name : String
  price : Nat
  category : String
  duration : Nat
  deriving Repr, DecidableEq

/-- The database state: the three tables the booking core touches. -/
structure DB where
  bookings : List Booking
  holidays : List Holiday
  services : List Service
  deriving Repr, DecidableEq

/-- One outbound notification request: destination phone and message body,
the arguments of a `sendWhatsApp(to, body)` call made by a handler. -/
abbrev Send := String × String

/-- All suffixes of a character list, from the list itself down to `[]`. -/
def suffixes : List Char → List (List Char)
  | [] => [[]]
  | c :: cs => (c :: cs) :: suffixes cs

/-- PostgreSQL `LIKE` matching on character lists: `%` matches any
sequence, `_` matches any single character, the default escape character
`\` makes the following pattern character match literally, and anything
else matches literally.  The pattern of this server's query is
`<date>%` with a user-supplied date, so escapes are reachable; a pattern
ending in a lone escape is rejected by PostgreSQL (the query errors, no
row matches), rendered here as matching nothing — unreachable in this
query since `%` is always appended. -/
def likeChars : List Char → List Char → Bool
  | [], s => s.isEmpty
  | p :: ps, s =>
    if p = '\\' then
      match ps with
      | [] => false
      | e :: ps2 =>
        match s with
        | [] => false
        | c :: cs => decide (e = c) && likeChars ps2 cs
    else if p = '%' then (suffixes s).any (fun t => likeChars ps t)
    else
      match s with
      | [] => false
      | c :: cs => (decide (p = '_') || decide (p = c)) && likeChars ps cs

/-- SQL `LIKE` on strings, as used in `date_time LIKE $1`. -/
def likeMatch (pat s : String) : Bool :=
  likeChars pat.toList s.toList

/-- One-step unfolding of `likeChars` on a cons pattern, independent of
the shape of the pattern tail and of the string. -/
theorem likeChars_cons (p : Char) (ps s : List Char) :
    likeChars (p :: ps) s =
      (if p = '\\' then
        match ps with
        | [] => false
        | e :: ps2 =>
          match s with
          | [] => false
          | c :: cs => decide (e = c) && likeChars ps2 cs
      else if p = '%' then (suffixes s).any (fun t => likeChars ps t)
      else
        match s with
        | [] => false
        | c :: cs => (decide (p = '_') || decide (p = c)) && likeChars ps cs) := by
  cases ps <;> cases s <;> rfl

/-- JavaScript `str.split(' at ')` on character lists: the chunks between
non-overlapping occurrences of the separator `" at "`, scanned left to
right. -/
def splitAtSep : List Char → List (List Char)
  | [] => [[]]
  | ' ' :: 'a' :: 't' :: ' ' :: cs => [] :: splitAtSep cs
  | c :: cs =>
    match splitAtSep cs with
    | [] => [[c]]
    | chunk :: rest => (c :: chunk) :: rest

/-- The time component of a composite date-time string:
JavaScript `row.date_time.split(' at ')[1]`, `none` when the split has no
second element (JS yields `undefined`). -/
def timeOf (s : String) : Option String :=
  ((splitAtSep s.toList)[1]?).map String.mk

/-- Response of `GET /api/slots`. -/
inductive SlotsResponse where
  | badRequest (error : String)
  | ok (status : String) (note : Option String) (data : List (Option String))
  deriving Repr, DecidableEq

/-- `GET /api/slots` handler: reject a falsy `date` query parameter
(absent or empty string) with 400 `Date required`; otherwise if any holiday
row has this exact date, answer with the first such row's status and note
and an empty slot list; otherwise list the `split(' at ')[1]` component of
every booking whose `date_time` matches `LIKE '<date>%'` and whose status
is not `Declined`. -/
def getSlots (date : Option String) (db : DB) : SlotsResponse :=
  match date with
  | none => .badRequest "Date required"
  | some d =>
    if d = "" then .badRequest "Date required"
    else
      match db.holidays.filter (fun h => decide (h.date = d)) with
      | h :: _ => .ok h.status (some h.note) []
      | [] =>
        let rows := db.bookings.filter
          (fun b => likeMatch (d ++ "%") b.date_time && decide (b.status ≠ "Declined"))
        .ok "Open" none (rows.map (fun b => timeOf b.date_time))

/-- Environment configuration read from `process.env` by the handlers. -/
structure Env where
  ownerPhone : Option String
  adminPanelUrl : Option String
  deriving Repr, DecidableEq

/-- Response of `POST /api/bookings`: `ok` is the 200 payload
`{message, id}`, `badRequest` the 400 payload `{error}`. -/
inductive CreateResponse where
  | ok (message : String) (id : Nat)
  | badRequest (error : String)
  deriving Repr, DecidableEq

/-- The owner-alert message composed on booking creation. -/
def ownerMsgOf (name phone service dateTime adminUrl : String) : String :=
  "🔔 *New Booking Request!*\n\n👤 " ++ name ++ "\n📱 " ++ phone ++ "\n✂️ " ++
    service ++ "\n📅 " ++ dateTime ++ "\n\nLink: " ++ adminUrl

/-- The booking row inserted by `POST /api/bookings`. -/
def onlineBooking (name phone service date time : String) (nextId : Nat) : Booking :=
  { id := nextId, shop_id := 1, customer_name := name, customer_phone := phone,
    service_name := service, date_time := date ++ " at " ++ time,
    status := "Pending", type := "Online" }

/-- `POST /api/bookings` handler: if any holiday row has this date and
status `Closed`, answer 400 `Shop is closed on <date>.` and change nothing;
otherwise insert a `Pending`/`Online` booking with `date_time`
`"<date> at <time>"`, request the owner notification when
`OWNER_PHONE_NUMBER` is configured, and answer `Booking sent!` with the
generated id. -/
def createBooking (name phone service date time : String) (env : Env)
    (nextId : Nat) (db : DB) : DB × List Send × CreateResponse :=
  let dateTime := date ++ " at " ++ time
  match db.holidays.filter (fun h => decide (h.date = date) && decide (h.status = "Closed")) with
  | _ :: _ => (db, [], .badRequest ("Shop is closed on " ++ date ++ "."))
  | [] =>
    let adminUrl := env.adminPanelUrl.getD "https://barber-admin-navy.vercel.app"
    let sends :=
      match env.ownerPhone with
      | some p => [(p, ownerMsgOf name phone service dateTime adminUrl)]
      | none => []
    ({ db with bookings := db.bookings ++ [onlineBooking name phone service date time nextId] },
      sends, .ok "Booking sent!" nextId)

/-- The Google-Maps link embedded in the confirmation message. -/
def locationLink : String := "https://maps.google.com/?q=102+Silver+Heights+Ahmedabad"

/-- The status-specific customer message of `PUT /api/admin/bookings/:id`,
empty for any target status other than the four notified ones. -/
def statusMsg (status : String) (b : Booking) : String :=
  if status = "Confirmed" then
    "✅ *Booking Confirmed!*\n\nHi " ++ b.customer_name ++
      ", your appointment is locked in.\n\n✂️ *Service:* " ++ b.service_name ++
      "\n📅 *Time:* " ++ b.date_time ++
      "\n📍 *Location:* 102 Silver Heights\n\n⚠️ *Please arrive 15 mins early.*\nLocation Map: " ++
      locationLink
  else if status = "Declined" then
    "⚠️ *Appointment Update*\n\nHi " ++ b.customer_name ++
      ", unfortunately we cannot accept your booking for " ++ b.date_time ++
      " due to high volume. Please pick a different slot on our website."
  else if status = "Completed" then
    "👋 *Thanks for visiting!*\n\nHi " ++ b.customer_name ++
      ", thanks for choosing Vogue Studio. We hope you love your new look! See you next time."
  else if status = "No-Show" then
    "📅 *Missed Appointment*\n\nHi " ++ b.customer_name ++
      ", we missed you today at " ++ b.date_time ++
      ". Hope everything is okay! Please reschedule whenever you are ready."
  else ""

/-- `PUT /api/admin/bookings/:id` handler: set the status of every booking
row with this id, re-read the row (`rows[0]`), and when it exists, is of
type `Online`, and the target status has a message template, request one
customer notification.  Always answers `Status Updated`. -/
def adminUpdateStatus (id : Nat) (status : String) (db : DB) :
    DB × List Send × String :=
  let bookings2 := db.bookings.map
    (fun b => if b.id = id then { b with status := status } else b)
  let sends :=
    match bookings2.filter (fun b => decide (b.id = id)) with
    | [] => []
    | b :: _ =>
      if b.type = "Online" then
        let m := statusMsg status b
        if m = "" then [] else [(b.customer_phone, m)]
      else []
  ({ db with bookings := bookings2 }, sends, "Status Updated")

/-- The customer message of `PUT /api/admin/bookings/:id/update`. -/
def updMsgOf (b : Booking) (service dateTime : String) : String :=
  "📅 *Appointment Updated*\n\nHi " ++ b.customer_name ++
    ", your appointment details have been changed:\n\n✂️ *Service:* " ++ service ++
    "\n🗓️ *New Time:* " ++ dateTime ++ "\n\n⚠️ *Please arrive 15 mins early.*"

/-- `PUT /api/admin/bookings/:id/update` handler: overwrite
`customer_name`, `service_name` and `date_time` of every booking row with
this id, re-read the row, and when it exists and is `Online` request an
appointment-updated notification.  Answers `Booking updated successfully`. -/
def updateBookingDetails (id : Nat) (name service date time : String) (db : DB) :
    DB × List Send × String :=
  let dateTime := date ++ " at " ++ time
  let bookings2 := db.bookings.map
    (fun b =>
      if b.id = id then
        { b with customer_name := name, service_name := service, date_time := dateTime }
      else b)
  let sends :=
    match bookings2.filter (fun b => decide (b.id = id)) with
    | [] => []
    | b :: _ =>
      if b.type = "Online" then [(b.customer_phone, updMsgOf b service dateTime)] else []
  ({ db with bookings := bookings2 }, sends, "Booking updated successfully")

/-- The booking row inserted by `POST /api/admin/walkin`; `today` is the
shop-local date string the handler computes from the clock. -/
def walkinBooking (name service time today : String) (nextId : Nat) : Booking :=
  { id := nextId, shop_id := 1, customer_name := name, customer_phone := "0000000000",
    service_name := service, date_time := today ++ " at " ++ time,
    status := "Confirmed", type := "Walk-in" }

/-- `POST /api/admin/walkin` handler: insert a `Confirmed`/`Walk-in`
booking dated today with the sentinel phone; no holiday lookup and no
notification call occur.  Answers `Walk-in added`. -/
def createWalkin (name service time today : String) (nextId : Nat) (db : DB) :
    DB × List Send × String :=
  ({ db with bookings := db.bookings ++ [walkinBooking name service time today nextId] },
    [], "Walk-in added")

/-- One row of the stats revenue query
`SELECT b.date_time, s.price FROM bookings b LEFT JOIN services s ON
b.service_name = s.name WHERE b.status = 'Completed'`; `price` is `none`
on an unmatched left join (SQL `NULL`). -/
structure RevRow where
  date_time : String
  price : Option Nat
  deriving Repr, DecidableEq

/-- The left-join rows contributed by one completed booking. -/
def joinRows (services : List Service) (b : Booking) : List RevRow :=
  match services.filter (fun s => decide (s.name = b.service_name)) with
  | [] => [⟨b.date_time, none⟩]
  | ms => ms.map (fun s => ⟨b.date_time, some s.price⟩)

/-- All rows of the stats revenue query. -/
def revRows (db : DB) : List RevRow :=
  (db.bookings.filter (fun b => decide (b.status = "Completed"))).flatMap (joinRows db.services)

/-- JavaScript `str.substring(0, 7)`: the month key of a date or
date-time string. -/
def monthKey (s : String) : String := String.mk (s.toList.take 7)

/-- One step of the `monthlyHistory[monthKey] += price` accumulation on
a JavaScript object modelled as an insertion-ordered association list. -/
def bumpHistory : List (String × Nat) → String → Nat → List (String × Nat)
  | [], k, v => [(k, v)]
  | (k', v') :: rest, k, v =>
    if k' = k then (k', v' + v) :: rest
    else (k', v') :: bumpHistory rest k v

/-- The `monthlyHistory` object after the `forEach` over the revenue rows;
rows with a falsy (empty) `date_time` are skipped. -/
def monthlyHistory (rows : List RevRow) : List (String × Nat) :=
  rows.foldl
    (fun hist row =>
      if row.date_time = "" then hist
      else bumpHistory hist (monthKey row.date_time) (row.price.getD 0))
    []

/-- The `currentMonthRevenue` accumulator of the same `forEach`. -/
def currentMonthRevenue (rows : List RevRow) (currentMonthStr : String) : Nat :=
  rows.foldl
    (fun acc row =>
      if row.date_time = "" then acc
      else if monthKey row.date_time = currentMonthStr then acc + row.price.getD 0
      else acc)
    0

/-- `historyArray`: the month buckets as `{month, revenue}` pairs sorted
by month key descending. -/
def historyArray (rows : List RevRow) : List (String × Nat) :=
  (monthlyHistory rows).insertionSort (fun a b => b.1 ≤ a.1)

/-- The `data` payload of `GET /api/admin/stats`; `todayDate` is the
shop-local date string the handler computes from the clock. -/
structure StatsData where
  today : Nat
  pending : Nat
  revenue : Nat
  history : List (String × Nat)
  deriving Repr, DecidableEq

/-- `GET /api/admin/stats` handler. -/
def getStats (todayDate : String) (db : DB) : StatsData :=
  let rows := revRows db
  { today := (db.bookings.filter
      (fun b => likeMatch (todayDate ++ "%") b.date_time &&
        (decide (b.status = "Confirmed") || decide (b.status = "Completed")))).length,
    pending := (db.bookings.filter (fun b => decide (b.status = "Pending"))).length,
    revenue := currentMonthRevenue rows (monthKey todayDate),
    history := historyArray rows }

/-- The price a completed booking's service name resolves to against the
current `services` table: the matching service's price, `0` when none
matches. -/
def resolvedPrice (services : List Service) (b : Booking) : Nat :=
  match services.find? (fun s => decide (s.name = b.service_name)) with
  | some s => s.price
  | none => 0

example : likeMatch "2024-06-01%" "2024-06-01 at 10:00" = true := by decide
example : likeMatch "2024-06-02%" "2024-06-01 at 10:00" = false := by decide
example : likeMatch "_024%" "2024-06-01 at 10:00" = true := by decide
example : likeMatch "\\2024%" "2024-06-01 at 10:00" = true := by decide
example : likeMatch "\\_024%" "2024-06-01 at 10:00" = false := by decide
example : timeOf "2024-06-01 at 10:00" = some "10:00" := by decide
example : timeOf "2024-06-01" = none := by decide

/-! ## Helper lemmas -/

/-- A string whose left append operand has non-empty data is non-empty. -/
theorem append_left_ne_empty (s t : String) (h : s.data ≠ []) : s ++ t ≠ "" := by
  intro he
  apply h
  have hd : s.data ++ t.data = [] := by
    have := congrArg String.data he
    simpa using this
  exact (List.append_eq_nil.mp hd).1

/-- Some suffix of every character list is empty (the final one). -/
theorem suffixes_any_isEmpty (s : List Char) :
    (suffixes s).any (fun t => t.isEmpty) = true := by
  induction s with
  | nil => decide
  | cons c cs ih => simp [suffixes, List.any_cons, ih]

/-- A lone `%` pattern matches every string. -/
theorem likeChars_percent (s : List Char) : likeChars ['%'] s = true := by
  have h : (suffixes s).any (fun t => likeChars [] t) = true := by
    have := suffixes_any_isEmpty s
    simpa [likeChars] using this
  simpa [likeChars_cons] using h

/-- On patterns free of wildcards and of the escape character,
`LIKE '<pat>%'` is exactly a prefix test. -/
theorem likeChars_append_percent (p : List Char)
    (hw : ∀ c ∈ p, c ≠ '%' ∧ c ≠ '_' ∧ c ≠ '\\') (s : List Char) :
    likeChars (p ++ ['%']) s = p.isPrefixOf s := by
  induction p generalizing s with
  | nil => simpa [List.isPrefixOf] using likeChars_percent s
  | cons c p ih =>
    have hc := hw c (by simp)
    cases s with
    | nil =>
      simp [likeChars_cons, List.isPrefixOf, hc.1, hc.2.2]
    | cons a as =>
      have ihas := ih (fun x hx => hw x (by simp [hx])) as
      by_cases hca : c = a
      · subst hca
        simp [likeChars_cons, List.isPrefixOf, hc.1, hc.2.1, hc.2.2, ihas]
      · simp [likeChars_cons, List.isPrefixOf, hc.1, hc.2.1, hc.2.2, hca, ihas]

/-! ## C9: missing date parameter on the slots query -/

/-- C9: for a missing (or present-but-empty, JS-falsy) `date` query
parameter, `GET /api/slots` answers 400 `Date required`, whatever the
database state is — so before any storage access can matter. -/
theorem slots_missing_date (db : DB) :
    getSlots none db = .badRequest "Date required" ∧
    getSlots (some "") db = .badRequest "Date required" := by
  exact ⟨rfl, by simp [getSlots]⟩

/-! ## C7: holiday override on the slots query -/

/-- C7: when at least one holiday row has the queried date, the slots
query answers the first such row's status and note with an empty slot
list, and the answer does not depend on the bookings table at all (no
occupied-slot computation happens). -/
theorem slots_holiday_override (d : String) (hd : d ≠ "") (db : DB)
    (h : Holiday) (rest : List Holiday)
    (hf : db.holidays.filter (fun x => decide (x.date = d)) = h :: rest) :
    getSlots (some d) db = .ok h.status (some h.note) [] ∧
    ∀ bs : List Booking,
      getSlots (some d) ⟨bs, db.holidays, db.services⟩ = .ok h.status (some h.note) [] := by
  constructor
  · simp [getSlots, hd, hf]
  · intro bs
    simp [getSlots, hd, hf]

/-- Witness for C7 at a concrete closed holiday. -/
theorem slots_holiday_override_witness :
    getSlots (some "2024-12-25")
        ⟨[⟨7, 1, "A", "9999999999", "Haircut", "2024-12-25 at 10:00", "Confirmed", "Online"⟩],
          [⟨1, "2024-12-25", "Closed", "Christmas"⟩], []⟩ =
      .ok "Closed" (some "Christmas") [] :=
  (slots_holiday_override "2024-12-25" (by decide)
    ⟨[⟨7, 1, "A", "9999999999", "Haircut", "2024-12-25 at 10:00", "Confirmed", "Online"⟩],
      [⟨1, "2024-12-25", "Closed", "Christmas"⟩], []⟩
    ⟨1, "2024-12-25", "Closed", "Christmas"⟩ [] (by decide)).1

/-! ## C4: walk-in creation -/

/-- C4: `POST /api/admin/walkin` inserts exactly one booking — dated
today (shop-local) with the requested time, status `Confirmed`, type
`Walk-in`, sentinel phone `0000000000` — makes zero notification calls,
and neither reads nor writes the holidays table (the handler is the same
under any holidays table and leaves it unchanged). -/
theorem walkin_silent_and_confirmed (name service time today : String)
    (nextId : Nat) (db : DB) :
    createWalkin name service time today nextId db =
      ({ db with bookings := db.bookings ++ [walkinBooking name service time today nextId] },
        [], "Walk-in added") ∧
    (walkinBooking name service time today nextId).status = "Confirmed" ∧
    (walkinBooking name service time today nextId).type = "Walk-in" ∧
    (walkinBooking name service time today nextId).customer_phone = "0000000000" ∧
    (walkinBooking name service time today nextId).date_time = today ++ " at " ++ time ∧
    ∀ hs : List Holiday,
      createWalkin name service time today nextId { db with holidays := hs } =
        ({ db with
            bookings := db.bookings ++ [walkinBooking name service time today nextId]
            holidays := hs }, [], "Walk-in added") := by
  exact ⟨rfl, rfl, rfl, rfl, rfl, fun hs => rfl⟩

/-! ## C1: booking creation on a closed holiday -/

/-- C1: when some holiday row has the requested date and status `Closed`,
`POST /api/bookings` answers 400 `Shop is closed on <date>.`, inserts no
booking row, and requests no notification. -/
theorem booking_rejected_on_closed_holiday (name phone service date time : String)
    (env : Env) (nextId : Nat) (db : DB) (h : Holiday)
    (hmem : h ∈ db.holidays) (hdate : h.date = date) (hstatus : h.status = "Closed") :
    createBooking name phone service date time env nextId db =
      (db, [], .badRequest ("Shop is closed on " ++ date ++ ".")) := by
  have hne : db.holidays.filter
      (fun x => decide (x.date = date) && decide (x.status = "Closed")) ≠ [] := by
    intro hnil
    have hmf : h ∈ db.holidays.filter
        (fun x => decide (x.date = date) && decide (x.status = "Closed")) :=
      List.mem_filter.mpr ⟨hmem, by simp [hdate, hstatus]⟩
    rw [hnil] at hmf
    exact absurd hmf (List.not_mem_nil h)
  obtain ⟨x, xs, hfe⟩ := List.exists_cons_of_ne_nil hne
  simp [createBooking, hfe]

/-- Witness for C1 at the spec's Christmas scenario. -/
theorem booking_rejected_witness :
    createBooking "A" "9999999999" "Haircut" "2024-12-25" "10:00" ⟨some "910000000000", none⟩ 1
        ⟨[], [⟨1, "2024-12-25", "Closed", "Christmas"⟩], []⟩ =
      (⟨[], [⟨1, "2024-12-25", "Closed", "Christmas"⟩], []⟩, [],
        .badRequest "Shop is closed on 2024-12-25.") :=
  (booking_rejected_on_closed_holiday "A" "9999999999" "Haircut" "2024-12-25" "10:00"
    ⟨some "910000000000", none⟩ 1 ⟨[], [⟨1, "2024-12-25", "Closed", "Christmas"⟩], []⟩
    ⟨1, "2024-12-25", "Closed", "Christmas"⟩ (by decide) (by decide) (by decide)).trans
    (by decide)

/-! ## C6: status transitions are idempotent -/

/-- C6: running the same status transition twice in a row returns the same
triple (database, notification requests, response) the second time as the
first: the stored record is unchanged by the repeat and the notification
content is identical (it is simply requested again, no dedup). -/
theorem status_update_idempotent (id : Nat) (status : String) (db : DB) :
    adminUpdateStatus id status (adminUpdateStatus id status db).1 =
      adminUpdateStatus id status db := by
  have hmap : (db.bookings.map (fun b => if b.id = id then { b with status := status } else b)).map
      (fun b => if b.id = id then { b with status := status } else b) =
      db.bookings.map (fun b => if b.id = id then { b with status := status } else b) := by
    rw [List.map_map]
    refine List.map_congr_left ?_
    intro b _
    by_cases hb : b.id = id <;> simp [Function.comp, hb]
  simp only [adminUpdateStatus]
  simp only [hmap]

/-! ## C8: reschedule touches only name, service and date-time -/

/-- C8: `PUT /api/admin/bookings/:id/update` relates the old and new
bookings tables row by row: every row keeps its status, phone, type, id
and shop id; rows with a different id are completely unchanged; the row
with the target id gets exactly the new name, service and composite
date-time.  Holidays and services tables are untouched. -/
theorem reschedule_frame (id : Nat) (name service date time : String) (db : DB) :
    (updateBookingDetails id name service date time db).1.holidays = db.holidays ∧
    (updateBookingDetails id name service date time db).1.services = db.services ∧
    List.Forall₂ (fun b b' =>
        b'.status = b.status ∧ b'.customer_phone = b.customer_phone ∧
        b'.type = b.type ∧ b'.id = b.id ∧ b'.shop_id = b.shop_id ∧
        (b.id ≠ id → b' = b) ∧
        (b.id = id → b'.customer_name = name ∧ b'.service_name = service ∧
          b'.date_time = date ++ " at " ++ time))
      db.bookings (updateBookingDetails id name service date time db).1.bookings := by
  refine ⟨rfl, rfl, ?_⟩
  have hrepr : (updateBookingDetails id name service date time db).1.bookings =
      db.bookings.map (fun b =>
        if b.id = id then
          { b with
              customer_name := name
              service_name := service
              date_time := date ++ " at " ++ time }
        else b) := rfl
  rw [hrepr, List.forall₂_map_right_iff, List.forall₂_same]
  intro x _
  by_cases hx : x.id = id <;> simp [hx]

/-! ## C3: No-Show transition notifies the customer -/

/-- C3: transitioning an existing `Online` booking to `No-Show` updates
its status and requests exactly one notification to the booking's
customer phone, whose body is the missed-appointment message inviting a
reschedule. -/
theorem noshow_notifies (id : Nat) (db : DB) (b : Booking)
    (hb : db.bookings.filter (fun x => decide (x.id = id)) = [b])
    (htype : b.type = "Online") :
    adminUpdateStatus id "No-Show" db =
      ({ db with bookings := (db.bookings.map
          (fun x => if x.id = id then { x with status := "No-Show" } else x)) },
        [(b.customer_phone,
          "📅 *Missed Appointment*\n\nHi " ++ b.customer_name ++ ", we missed you today at " ++
            b.date_time ++ ". Hope everything is okay! Please reschedule whenever you are ready.")],
        "Status Updated") := by
  have hbmem : b ∈ db.bookings.filter (fun x => decide (x.id = id)) := by
    rw [hb]; exact List.mem_singleton_self b
  have hbid : b.id = id := by
    have h2 := (List.mem_filter.mp hbmem).2
    simpa using h2
  have hpf : ((fun x : Booking => decide (x.id = id)) ∘
      (fun x : Booking => if x.id = id then { x with status := "No-Show" } else x)) =
      (fun x : Booking => decide (x.id = id)) := by
    funext x
    by_cases hx : x.id = id <;> simp [Function.comp, hx]
  have hfm : (db.bookings.map
        (fun x => if x.id = id then { x with status := "No-Show" } else x)).filter
        (fun x => decide (x.id = id)) = [{ b with status := "No-Show" }] := by
    rw [List.filter_map, hpf, hb]
    simp [hbid]
  have hmne : ("📅 *Missed Appointment*\n\nHi " ++ b.customer_name ++
      ", we missed you today at " ++ b.date_time ++
      ". Hope everything is okay! Please reschedule whenever you are ready.") ≠ "" := by
    intro he
    have hdata : ("📅 *Missed Appointment*\n\nHi " ++ b.customer_name ++
        ", we missed you today at " ++ b.date_time ++
        ". Hope everything is okay! Please reschedule whenever you are ready.").data =
        ("" : String).data := congrArg String.data he
    rw [show ("" : String).data = [] from rfl] at hdata
    simp only [String.data_append, List.append_eq_nil] at hdata
    exact absurd hdata.1.1.1.1 (by decide)
  simp only [adminUpdateStatus, hfm, statusMsg]
  simp only [htype]
  simp [hmne]

/-- Witness for C3 at the spec's transition scenario. -/
theorem noshow_notifies_witness :
    adminUpdateStatus 5 "No-Show"
        ⟨[⟨5, 1, "Raj", "9998887777", "Haircut", "2024-06-01 at 10:00", "Confirmed", "Online"⟩],
          [], []⟩ =
      (⟨[⟨5, 1, "Raj", "9998887777", "Haircut", "2024-06-01 at 10:00", "No-Show", "Online"⟩],
          [], []⟩,
        [("9998887777",
          "📅 *Missed Appointment*\n\nHi Raj, we missed you today at 2024-06-01 at 10:00. Hope everything is okay! Please reschedule whenever you are ready.")],
        "Status Updated") :=
  (noshow_notifies 5
    ⟨[⟨5, 1, "Raj", "9998887777", "Haircut", "2024-06-01 at 10:00", "Confirmed", "Online"⟩], [], []⟩
    ⟨5, 1, "Raj", "9998887777", "Haircut", "2024-06-01 at 10:00", "Confirmed", "Online"⟩
    (by decide) (by decide)).trans (by decide)

/-! ## C2: open-day slot listing -/

/-- Counterexample to C2 as universally stated: the handler matches
`date_time LIKE '<date>%'`, and `_` is a `LIKE` wildcard, so for the date
string `_024-06-01` a booking on `2024-06-01` is listed although its
`date_time` does not begin with that date string. -/
theorem slots_by_date_counterexample :
    ¬ (getSlots (some "_024-06-01")
        ⟨[⟨1, 1, "A", "9999999999", "Haircut", "2024-06-01 at 10:00", "Confirmed", "Online"⟩],
          [], []⟩ =
      .ok "Open" none
        ((([⟨1, 1, "A", "9999999999", "Haircut", "2024-06-01 at 10:00", "Confirmed", "Online"⟩] :
            List Booking).filter
          (fun b => "_024-06-01".toList.isPrefixOf b.date_time.toList &&
            decide (b.status ≠ "Declined"))).map
          (fun b => timeOf b.date_time))) := by decide

/-- C2 (amended): for a non-empty date string containing no SQL `LIKE`
wildcard (`%`, `_`) and no `LIKE` escape character (`\`), and with no
holiday row on that date, the slots query answers `Open` together with
exactly the time components of the bookings whose `date_time` begins with
the date string and whose status is not `Declined` — so a `Declined`
booking never contributes its time, while `Pending`, `Confirmed`,
`Completed` and `No-Show` all do. -/
theorem slots_open_lists_non_declined (d : String) (db : DB)
    (hd : d ≠ "")
    (hw : ∀ c ∈ d.toList, c ≠ '%' ∧ c ≠ '_' ∧ c ≠ '\\')
    (hh : db.holidays.filter (fun x => decide (x.date = d)) = []) :
    getSlots (some d) db =
      .ok "Open" none
        ((db.bookings.filter
          (fun b => d.toList.isPrefixOf b.date_time.toList && decide (b.status ≠ "Declined"))).map
          (fun b => timeOf b.date_time)) := by
  have htl : (d ++ "%").toList = d.toList ++ ['%'] := by
    simp [String.toList, String.data_append]
  have hlk : ∀ b : Booking,
      likeMatch (d ++ "%") b.date_time = d.toList.isPrefixOf b.date_time.toList := by
    intro b
    unfold likeMatch
    rw [htl, likeChars_append_percent d.toList hw]
  have hfeq : db.bookings.filter
      (fun b => likeMatch (d ++ "%") b.date_time && decide (b.status ≠ "Declined")) =
      db.bookings.filter
        (fun b => d.toList.isPrefixOf b.date_time.toList && decide (b.status ≠ "Declined")) := by
    apply List.filter_congr
    intro b _
    rw [hlk b]
  simp only [getSlots, hh, if_neg hd]
  rw [hfeq]

/-- Witness for C2 (amended) at the spec's scenario: a `Confirmed` booking
at 10:00 is listed, a `Declined` one at 11:00 is not. -/
theorem slots_open_witness :
    getSlots (some "2024-06-01")
        ⟨[⟨1, 1, "A", "9999999999", "Haircut", "2024-06-01 at 10:00", "Confirmed", "Online"⟩,
          ⟨2, 1, "B", "8888888888", "Shave", "2024-06-01 at 11:00", "Declined", "Online"⟩],
          [], []⟩ =
      .ok "Open" none [some "10:00"] :=
  (slots_open_lists_non_declined "2024-06-01"
    ⟨[⟨1, 1, "A", "9999999999", "Haircut", "2024-06-01 at 10:00", "Confirmed", "Online"⟩,
      ⟨2, 1, "B", "8888888888", "Shave", "2024-06-01 at 11:00", "Declined", "Online"⟩],
      [], []⟩
    (by decide) (by decide) (by decide)).trans (by decide)

/-! ## C10: a non-Closed holiday does not block creation -/

/-- C10: when the requested date has holiday rows but none with status
`Closed`, booking creation succeeds: the `Pending`/`Online` row is
inserted, the new id is returned, and the owner notification is requested
exactly when `OWNER_PHONE_NUMBER` is configured — even though the slots
query for the same date reports the (first) holiday row's status with an
empty slot list. -/
theorem limited_holiday_allows_booking (name phone service date time : String)
    (env : Env) (nextId : Nat) (db : DB)
    (hnc : ∀ h ∈ db.holidays, h.date = date → h.status ≠ "Closed")
    (h0 : Holiday) (rest : List Holiday)
    (hf : db.holidays.filter (fun x => decide (x.date = date)) = h0 :: rest)
    (hd : date ≠ "") :
    createBooking name phone service date time env nextId db =
      ({ db with bookings := db.bookings ++ [onlineBooking name phone service date time nextId] },
        (match env.ownerPhone with
         | some p => [(p, ownerMsgOf name phone service (date ++ " at " ++ time)
             (env.adminPanelUrl.getD "https://barber-admin-navy.vercel.app"))]
         | none => []),
        .ok "Booking sent!" nextId) ∧
    (onlineBooking name phone service date time nextId).status = "Pending" ∧
    (onlineBooking name phone service date time nextId).type = "Online" ∧
    getSlots (some date)
        { db with bookings := db.bookings ++ [onlineBooking name phone service date time nextId] } =
      .ok h0.status (some h0.note) [] := by
  have hcf : db.holidays.filter
      (fun x => decide (x.date = date) && decide (x.status = "Closed")) = [] := by
    rw [List.filter_eq_nil_iff]
    intro h hmem hp
    have hp2 : h.date = date ∧ h.status = "Closed" := by simpa using hp
    exact hnc h hmem hp2.1 hp2.2
  refine ⟨?_, rfl, rfl, ?_⟩
  · simp [createBooking, hcf]
  · simp [getSlots, hd, hf]

/-- Witness for C10 at a `Limited` holiday. -/
theorem limited_holiday_witness :
    (createBooking "A" "9999999999" "Haircut" "2024-11-01" "10:00" ⟨none, none⟩ 1
        ⟨[], [⟨1, "2024-11-01", "Limited", "Half day"⟩], []⟩ =
      (⟨[⟨1, 1, "A", "9999999999", "Haircut", "2024-11-01 at 10:00", "Pending", "Online"⟩],
          [⟨1, "2024-11-01", "Limited", "Half day"⟩], []⟩, [], .ok "Booking sent!" 1)) ∧
    getSlots (some "2024-11-01")
        ⟨[⟨1, 1, "A", "9999999999", "Haircut", "2024-11-01 at 10:00", "Pending", "Online"⟩],
          [⟨1, "2024-11-01", "Limited", "Half day"⟩], []⟩ =
      .ok "Limited" (some "Half day") [] := by
  have h := limited_holiday_allows_booking "A" "9999999999" "Haircut" "2024-11-01" "10:00"
    ⟨none, none⟩ 1 ⟨[], [⟨1, "2024-11-01", "Limited", "Half day"⟩], []⟩
    (by decide) ⟨1, "2024-11-01", "Limited", "Half day"⟩ [] (by decide) (by decide)
  exact ⟨h.1.trans (by decide), h.2.2.2.trans (by decide)⟩

/-! ## C5: revenue aggregation round trip -/

/-- The total revenue recorded in a month-bucket association list. -/
def sumVals (l : List (String × Nat)) : Nat := (l.map Prod.snd).sum

@[simp] theorem sumVals_nil : sumVals [] = 0 := rfl

@[simp] theorem sumVals_cons (p : String × Nat) (l : List (String × Nat)) :
    sumVals (p :: l) = p.2 + sumVals l := by
  simp [sumVals]

/-- Bumping a bucket adds exactly the bumped amount to the total. -/
theorem sumVals_bumpHistory (hist : List (String × Nat)) (k : String) (v : Nat) :
    sumVals (bumpHistory hist k v) = sumVals hist + v := by
  induction hist with
  | nil => simp [bumpHistory]
  | cons p rest ih =>
    obtain ⟨k', v'⟩ := p
    by_cases hk : k' = k
    · simp [bumpHistory, hk]
      omega
    · simp [bumpHistory, hk, ih]
      omega

/-- The bucketing fold accumulates exactly the prices of the rows with a
truthy `date_time`. -/
theorem sumVals_monthlyFold (rows : List RevRow) (hist : List (String × Nat)) :
    sumVals (rows.foldl
        (fun h row =>
          if row.date_time = "" then h
          else bumpHistory h (monthKey row.date_time) (row.price.getD 0))
        hist) =
      sumVals hist +
        ((rows.filter (fun r => decide (r.date_time ≠ ""))).map (fun r => r.price.getD 0)).sum := by
  induction rows generalizing hist with
  | nil => simp
  | cons r rs ih =>
    by_cases hr : r.date_time = ""
    · simp [List.foldl_cons, hr, List.filter_cons, ih]
    · simp [List.foldl_cons, hr, List.filter_cons, ih, sumVals_bumpHistory]
      omega

/-- The `monthlyHistory` buckets hold exactly the prices of the rows with
a truthy `date_time`. -/
theorem sumVals_monthlyHistory (rows : List RevRow) :
    sumVals (monthlyHistory rows) =
      ((rows.filter (fun r => decide (r.date_time ≠ ""))).map (fun r => r.price.getD 0)).sum := by
  simpa [monthlyHistory] using sumVals_monthlyFold rows []

/-- Sorting the history does not change the total. -/
theorem sumVals_historyArray (rows : List RevRow) :
    sumVals (historyArray rows) = sumVals (monthlyHistory rows) := by
  unfold historyArray sumVals
  exact ((List.perm_insertionSort _ _).map Prod.snd).sum_eq

/-- A flat map whose function yields singletons is a map. -/
theorem flatMap_eq_map {α β : Type} (l : List α) (f : α → List β) (g : α → β)
    (h : ∀ a ∈ l, f a = [g a]) : l.flatMap f = l.map g := by
  induction l with
  | nil => simp
  | cons a as ih =>
    simp [List.flatMap_cons, h a (List.mem_cons_self a as),
      ih (fun x hx => h x (List.mem_cons_of_mem a hx))]

/-- With pairwise-distinct service names, the left join pairs one
completed booking with exactly one row, priced by `find?`. -/
theorem joinRows_unique (services : List Service)
    (hnames : (services.map Service.name).Nodup) (b : Booking) :
    joinRows services b =
      [⟨b.date_time,
        (services.find? (fun s => decide (s.name = b.service_name))).map Service.price⟩] := by
  induction services with
  | nil => simp [joinRows, List.find?]
  | cons s ss ih =>
    rw [List.map_cons, List.nodup_cons] at hnames
    obtain ⟨hnot, hnd⟩ := hnames
    by_cases hs : s.name = b.service_name
    · have hfe : ss.filter (fun x => decide (x.name = b.service_name)) = [] := by
        rw [List.filter_eq_nil_iff]
        intro x hx hpx
        have hxn : x.name = b.service_name := by simpa using hpx
        exact hnot (List.mem_map.mpr ⟨x, hx, by rw [hxn, hs]⟩)
      simp [joinRows, List.filter_cons, hs, hfe, List.find?_cons]
    · have ihh := ih hnd
      simp only [joinRows] at ihh ⊢
      simp [List.filter_cons, hs, List.find?_cons, ihh]

/-- With pairwise-distinct service names, the revenue rows are exactly one
row per completed booking. -/
theorem revRows_unique (db : DB) (hnames : (db.services.map Service.name).Nodup) :
    revRows db = (db.bookings.filter (fun b => decide (b.status = "Completed"))).map
      (fun b => (⟨b.date_time,
        (db.services.find? (fun s => decide (s.name = b.service_name))).map Service.price⟩ :
          RevRow)) := by
  unfold revRows
  exact flatMap_eq_map _ _ _ (fun b _ => joinRows_unique db.services hnames b)

/-- Counterexample to C5 as universally stated: a `Completed` booking with
an empty (JS-falsy) `date_time` is skipped by the monthly bucketing, so the
history total misses its resolved price. -/
theorem stats_history_counterexample :
    ¬ ((((getStats "2024-06-15"
        ⟨[⟨1, 1, "A", "9999999999", "Haircut", "", "Completed", "Online"⟩], [],
          [⟨1, "Haircut", 500, "Hair", 30⟩]⟩).history).map Prod.snd).sum =
      ((([⟨1, 1, "A", "9999999999", "Haircut", "", "Completed", "Online"⟩] : List Booking).filter
        (fun b => decide (b.status = "Completed"))).map
        (resolvedPrice [⟨1, "Haircut", 500, "Hair", 30⟩])).sum) := by decide

/-- C5 (amended): when every `Completed` booking has a non-empty
`date_time` (and service names are pairwise distinct, as the data model
requires), the sum of the revenue values over all `{month, revenue}`
entries of the stats history equals the direct sum of all `Completed`
bookings' resolved prices: the bucketing loses no revenue. -/
theorem stats_history_total (todayDate : String) (db : DB)
    (hnames : (db.services.map Service.name).Nodup)
    (hdt : ∀ b ∈ db.bookings, b.status = "Completed" → b.date_time ≠ "") :
    (((getStats todayDate db).history).map Prod.snd).sum =
      ((db.bookings.filter (fun b => decide (b.status = "Completed"))).map
        (resolvedPrice db.services)).sum := by
  show sumVals ((getStats todayDate db).history) = _
  have h1 : (getStats todayDate db).history = historyArray (revRows db) := rfl
  rw [h1, sumVals_historyArray, sumVals_monthlyHistory, revRows_unique db hnames,
    List.filter_map]
  have hps : ((fun r : RevRow => decide (r.date_time ≠ "")) ∘
      (fun b : Booking => (⟨b.date_time,
        (db.services.find? (fun s => decide (s.name = b.service_name))).map Service.price⟩ :
          RevRow))) = fun b : Booking => decide (b.date_time ≠ "") := by
    funext b
    simp [Function.comp]
  rw [hps]
  have hkeep : (db.bookings.filter (fun b => decide (b.status = "Completed"))).filter
      (fun b => decide (b.date_time ≠ "")) =
      db.bookings.filter (fun b => decide (b.status = "Completed")) := by
    rw [List.filter_eq_self]
    intro a ha
    have hmem := List.mem_filter.mp ha
    have hcomp : a.status = "Completed" := by simpa using hmem.2
    simpa using hdt a hmem.1 hcomp
  rw [hkeep, List.map_map]
  congr 1
  apply List.map_congr_left
  intro b _
  cases hf : db.services.find? (fun s => decide (s.name = b.service_name)) with
  | none => simp [Function.comp, resolvedPrice, hf]
  | some s => simp [Function.comp, resolvedPrice, hf]

/-- Witness for C5 (amended) at the spec's scenario of two completed
bookings priced 500 and 700. -/
theorem stats_history_witness :
    (((getStats "2024-06-15"
        ⟨[⟨1, 1, "A", "9999999999", "Haircut", "2024-06-01 at 10:00", "Completed", "Online"⟩,
          ⟨2, 1, "B", "8888888888", "Shave", "2024-06-20 at 12:00", "Completed", "Online"⟩],
          [],
          [⟨1, "Haircut", 500, "Hair", 30⟩, ⟨2, "Shave", 700, "Hair", 20⟩]⟩).history).map
        Prod.snd).sum =
      ((([⟨1, 1, "A", "9999999999", "Haircut", "2024-06-01 at 10:00", "Completed", "Online"⟩,
          ⟨2, 1, "B", "8888888888", "Shave", "2024-06-20 at 12:00", "Completed", "Online"⟩] :
            List Booking).filter (fun b => decide (b.status = "Completed"))).map
        (resolvedPrice [⟨1, "Haircut", 500, "Hair", 30⟩, ⟨2, "Shave", 700, "Hair", 20⟩])).sum :=
  stats_history_total "2024-06-15"
    ⟨[⟨1, 1, "A", "9999999999", "Haircut", "2024-06-01 at 10:00", "Completed", "Online"⟩,
      ⟨2, 1, "B", "8888888888", "Shave", "2024-06-20 at 12:00", "Completed", "Online"⟩],
      [],
      [⟨1, "Haircut", 500, "Hair", 30⟩, ⟨2, "Shave", 700, "Hair", 20⟩]⟩
    (by decide) (by decide)

end Barber
